import Mathlib

/-!
Verification of the colorstory constraint-based scheme core.

The JavaScript source is embedded shallowly over exact rationals.  The one
operation that has no exact rational counterpart is the gamma decode
Math.pow(x, 2.4) used by srgbToLinear; it is modelled as an explicit
function parameter g, and theorems that need its analytic behaviour
assume exactly the order and range facts that the real power function
enjoys on [0, 1].  Math.random driven choices (Fisher-Yates shuffles and
pickRandom) are modelled as oracle parameters: a shuffle family indexed
by a call counter, and a natural number index for pickRandom.
-/

namespace Colorstory

/-- An sRGB triple, channels 0..255 as in the source arrays [r, g, b]. -/
structure RGB where
  r : ℚ
  g : ℚ
  b : ℚ
deriving DecidableEq, Repr

/-- The precondition on sRGB triples: each channel lies in [0, 255]. -/
def RGB.inGamut (c : RGB) : Prop :=
  0 ≤ c.r ∧ c.r ≤ 255 ∧ 0 ≤ c.g ∧ c.g ≤ 255 ∧ 0 ≤ c.b ∧ c.b ≤ 255

instance (c : RGB) : Decidable c.inGamut := by
  unfold RGB.inGamut; infer_instance

/-- An OKLCH triple as stored on a palette color: [L, C, H]. -/
structure Oklch where
  L : ℚ
  C : ℚ
  h : ℚ
deriving DecidableEq, Repr

/-- A palette color: name, rgb triple and oklch triple, as in the source
Color objects. -/
structure Color where
  name : String
  rgb : RGB
  oklch : Oklch
deriving DecidableEq, Repr

/-! ## ColorMath (math.js) -/

/-- srgbToLinear from math.js.  The nonlinear branch Math.pow(x, 2.4) is
the function parameter g. -/
def srgbToLinear (g : ℚ → ℚ) (val : ℚ) : ℚ :=
  if val / 255 ≤ 0.04045 then val / 255 / 12.92
  else g ((val / 255 + 0.055) / 1.055)

/-- relativeLuminance from math.js: 0.2126 r + 0.7152 g + 0.0722 b on
linearized channels. -/
def relativeLuminance (g : ℚ → ℚ) (c : RGB) : ℚ :=
  0.2126 * srgbToLinear g c.r + 0.7152 * srgbToLinear g c.g
    + 0.0722 * srgbToLinear g c.b

/-- contrastRatio from math.js: (lighter + 0.05) / (darker + 0.05). -/
def contrastRatio (g : ℚ → ℚ) (rgb1 rgb2 : RGB) : ℚ :=
  let l1 := relativeLuminance g rgb1
  let l2 := relativeLuminance g rgb2
  (max l1 l2 + 0.05) / (min l1 l2 + 0.05)

/-- hueDifference from math.js: shortest arc between two hues. -/
def hueDifference (h1 h2 : ℚ) : ℚ :=
  let diff := |h1 - h2|
  if 180 < diff then 360 - diff else diff

/-- The behaviour Math.pow(·, 2.4) has on [0, 1]: values stay in [0, 1]. -/
def GammaInto01 (g : ℚ → ℚ) : Prop :=
  ∀ x, 0 ≤ x → x ≤ 1 → 0 ≤ g x ∧ g x ≤ 1

/-- A concrete stand-in gamma curve (squaring) used to instantiate the
parameterised theorems on concrete inputs; it maps [0, 1] into [0, 1]
and fixes 1, just as the real 2.4 power does. -/
def gSq (x : ℚ) : ℚ := x * x

lemma gSq_into01 : GammaInto01 gSq := by
  intro x h0 h1
  constructor
  · exact mul_nonneg h0 h0
  · calc x * x ≤ 1 * 1 := by exact mul_le_mul h1 h1 h0 (by norm_num)
    _ = 1 := by norm_num

lemma gSq_one : gSq 1 = 1 := by norm_num [gSq]

lemma srgbToLinear_bounds (g : ℚ → ℚ) (hg : GammaInto01 g) (v : ℚ)
    (h0 : 0 ≤ v) (h1 : v ≤ 255) :
    0 ≤ srgbToLinear g v ∧ srgbToLinear g v ≤ 1 := by
  unfold srgbToLinear
  have hv0 : 0 ≤ v / 255 := div_nonneg h0 (by norm_num)
  have hv1 : v / 255 ≤ 1 := by rw [div_le_one (by norm_num)]; linarith
  split
  · rename_i h
    constructor
    · positivity
    · have heq : v / 255 / 12.92 = (v / 255) / 12.92 := rfl
      rw [heq, div_le_one (by norm_num)]
      linarith
  · apply hg
    · have : (0 : ℚ) ≤ v / 255 + 0.055 := by linarith
      exact div_nonneg this (by norm_num)
    · rw [div_le_one (by norm_num)]
      linarith

lemma relativeLuminance_bounds (g : ℚ → ℚ) (hg : GammaInto01 g) (c : RGB)
    (hc : c.inGamut) :
    0 ≤ relativeLuminance g c ∧ relativeLuminance g c ≤ 1 := by
  obtain ⟨h1, h2, h3, h4, h5, h6⟩ := hc
  obtain ⟨hr0, hr1⟩ := srgbToLinear_bounds g hg c.r h1 h2
  obtain ⟨hg0, hg1⟩ := srgbToLinear_bounds g hg c.g h3 h4
  obtain ⟨hb0, hb1⟩ := srgbToLinear_bounds g hg c.b h5 h6
  unfold relativeLuminance
  constructor <;> nlinarith

lemma contrastRatio_def (g : ℚ → ℚ) (a b : RGB) :
    contrastRatio g a b =
      (max (relativeLuminance g a) (relativeLuminance g b) + 0.05) /
        (min (relativeLuminance g a) (relativeLuminance g b) + 0.05) := rfl

/-- Claim C4: contrastRatio equals (Lmax + 0.05) / (Lmin + 0.05) over the
relative luminances of its arguments, is symmetric, always lies in [1, 21]
for in-gamut triples, equals 1 on equal arguments, and equals exactly 21 on
black versus white.  The gamma decode parameter g is assumed to map [0, 1]
into [0, 1] and to fix 1, as Math.pow(x, 2.4) does. -/
theorem contrastRatio_spec (g : ℚ → ℚ) (hg : GammaInto01 g) (hg1 : g 1 = 1) :
    (∀ a b : RGB, contrastRatio g a b =
        (max (relativeLuminance g a) (relativeLuminance g b) + 0.05) /
          (min (relativeLuminance g a) (relativeLuminance g b) + 0.05)) ∧
    (∀ a b : RGB, contrastRatio g a b = contrastRatio g b a) ∧
    (∀ a b : RGB, a.inGamut → b.inGamut →
        1 ≤ contrastRatio g a b ∧ contrastRatio g a b ≤ 21) ∧
    (∀ a : RGB, a.inGamut → contrastRatio g a a = 1) ∧
    contrastRatio g ⟨0, 0, 0⟩ ⟨255, 255, 255⟩ = 21 := by
  have hlum0 : srgbToLinear g 0 = 0 := by
    unfold srgbToLinear
    rw [if_pos (by norm_num)]
    norm_num
  have hlum255 : srgbToLinear g 255 = 1 := by
    unfold srgbToLinear
    rw [if_neg (by norm_num)]
    rw [show ((255 : ℚ) / 255 + 0.055) / 1.055 = 1 by norm_num, hg1]
  refine ⟨fun a b => rfl, ?_, ?_, ?_, ?_⟩
  · intro a b
    rw [contrastRatio_def, contrastRatio_def, max_comm, min_comm]
  · intro a b ha hb
    obtain ⟨ha0, ha1⟩ := relativeLuminance_bounds g hg a ha
    obtain ⟨hb0, hb1⟩ := relativeLuminance_bounds g hg b hb
    rw [contrastRatio_def]
    set la := relativeLuminance g a
    set lb := relativeLuminance g b
    have hmin0 : (0 : ℚ) ≤ min la lb := le_min ha0 hb0
    have hminpos : (0 : ℚ) < min la lb + 0.05 := by linarith
    have hmax1 : max la lb ≤ 1 := max_le ha1 hb1
    have hle : min la lb ≤ max la lb := min_le_max
    constructor
    · rw [le_div_iff₀ hminpos]
      linarith
    · rw [div_le_iff₀ hminpos]
      linarith
  · intro a ha
    obtain ⟨ha0, _⟩ := relativeLuminance_bounds g hg a ha
    rw [contrastRatio_def, max_self, min_self]
    exact div_self (by linarith)
  · rw [contrastRatio_def]
    unfold relativeLuminance
    simp only [hlum0, hlum255]
    norm_num

/-- Witness for claim C4 at the squaring gamma curve and concrete triples. -/
theorem contrastRatio_spec_witness :
    contrastRatio gSq ⟨0, 0, 0⟩ ⟨255, 255, 255⟩ = 21 ∧
    contrastRatio gSq ⟨10, 20, 30⟩ ⟨200, 100, 50⟩ =
      contrastRatio gSq ⟨200, 100, 50⟩ ⟨10, 20, 30⟩ ∧
    (1 ≤ contrastRatio gSq ⟨10, 20, 30⟩ ⟨200, 100, 50⟩ ∧
      contrastRatio gSq ⟨10, 20, 30⟩ ⟨200, 100, 50⟩ ≤ 21) ∧
    contrastRatio gSq ⟨10, 20, 30⟩ ⟨10, 20, 30⟩ = 1 := by
  obtain ⟨_, hsymm, hrange, hself, hbw⟩ := contrastRatio_spec gSq gSq_into01 gSq_one
  exact ⟨hbw, hsymm _ _, hrange _ _ (by decide) (by decide), hself _ (by decide)⟩

/-! ## Classifier (colors.js) -/

/-- TONE.DARK_MAX from colors.js. -/
def TONE_DARK_MAX : ℚ := 0.35

/-- TONE.LIGHT_MIN from colors.js. -/
def TONE_LIGHT_MIN : ℚ := 0.75

/-- CHROMA.NEUTRAL_MAX from colors.js. -/
def CHROMA_NEUTRAL_MAX : ℚ := 0.04

/-- CHROMA.STRONG_MIN from colors.js. -/
def CHROMA_STRONG_MIN : ℚ := 0.08

inductive Tone where
  | dark
  | mid
  | light
deriving DecidableEq, Repr

inductive ChromaClassT where
  | neutral
  | muted
  | vivid
deriving DecidableEq, Repr

/-- getTone from colors.js. -/
def getTone (L : ℚ) : Tone :=
  if L ≤ TONE_DARK_MAX then .dark
  else if TONE_LIGHT_MIN < L then .light
  else .mid

/-- getChromaClass from colors.js (the ChromaClass values neutral, muted
and vivid). -/
def getChromaClass (C : ℚ) : ChromaClassT :=
  if C < CHROMA_NEUTRAL_MAX then .neutral
  else if C < CHROMA_STRONG_MIN then .muted
  else .vivid

structure HueRange where
  min : ℚ
  max : ℚ
  wrap : Bool
deriving DecidableEq, Repr

/-- DESTRUCTIVE_HUE from colors.js: wrapping red and brick hue window. -/
def DESTRUCTIVE_HUE : HueRange := { min := 350, max := 40, wrap := true }

/-- hueInRange from colors.js. -/
def hueInRange (h : ℚ) (range : HueRange) : Bool :=
  if range.wrap then decide (range.min ≤ h) || decide (h ≤ range.max)
  else decide (range.min ≤ h) && decide (h ≤ range.max)

structure ClassifiedPalette where
  darkNeutrals : List Color
  midNeutrals : List Color
  lightNeutrals : List Color
  darkMuted : List Color
  midMuted : List Color
  lightMuted : List Color
  darkVivid : List Color
  midVivid : List Color
  lightVivid : List Color
  destructiveCandidates : List Color
  all : List Color

/-- One tone and chroma bucket test of the classifyPalette loop. -/
def inBucket (t : Tone) (cc : ChromaClassT) (c : Color) : Bool :=
  decide (getTone c.oklch.L = t) && decide (getChromaClass c.oklch.C = cc)

/-- The destructive candidacy test of the classifyPalette loop: minimum
chroma 0.02 and hue in the wrapping destructive window. -/
def isDestructiveCandidate (c : Color) : Bool :=
  decide (0.02 ≤ c.oklch.C) && hueInRange c.oklch.h DESTRUCTIVE_HUE

/-- classifyPalette from colors.js.  The imperative loop pushes each color
into the single tone and chroma bucket selected by its classification, and
independently into destructiveCandidates; pushing in input order is the
same as filtering the input per bucket. -/
def classifyPalette (colors : List Color) : ClassifiedPalette where
  darkNeutrals := colors.filter (inBucket .dark .neutral)
  midNeutrals := colors.filter (inBucket .mid .neutral)
  lightNeutrals := colors.filter (inBucket .light .neutral)
  darkMuted := colors.filter (inBucket .dark .muted)
  midMuted := colors.filter (inBucket .mid .muted)
  lightMuted := colors.filter (inBucket .light .muted)
  darkVivid := colors.filter (inBucket .dark .vivid)
  midVivid := colors.filter (inBucket .mid .vivid)
  lightVivid := colors.filter (inBucket .light .vivid)
  destructiveCandidates := colors.filter isDestructiveCandidate
  all := colors

/-- Claim C6: tone is dark iff L is at most 0.35, light iff L exceeds 0.75,
else mid; chroma class is neutral iff C is below 0.04, vivid iff C is at
least 0.08, else muted; and classifyPalette puts a color into
destructiveCandidates iff its chroma is at least 0.02 and its hue lies in
the wrapping window from 350 up to 360 or from 0 to 40 (stated for hues
already normalized into [0, 360) as the data model guarantees). -/
theorem classification_spec (L C : ℚ) (color : Color) (colors : List Color) :
    (getTone L = Tone.dark ↔ L ≤ 0.35) ∧
    (getTone L = Tone.light ↔ 0.75 < L) ∧
    (getTone L = Tone.mid ↔ 0.35 < L ∧ L ≤ 0.75) ∧
    (getChromaClass C = ChromaClassT.neutral ↔ C < 0.04) ∧
    (getChromaClass C = ChromaClassT.vivid ↔ 0.08 ≤ C) ∧
    (getChromaClass C = ChromaClassT.muted ↔ 0.04 ≤ C ∧ C < 0.08) ∧
    (0 ≤ color.oklch.h → color.oklch.h < 360 →
      (color ∈ (classifyPalette colors).destructiveCandidates ↔
        color ∈ colors ∧ 0.02 ≤ color.oklch.C ∧
          ((350 ≤ color.oklch.h ∧ color.oklch.h < 360) ∨
            (0 ≤ color.oklch.h ∧ color.oklch.h ≤ 40)))) := by
  refine ⟨?_, ?_, ?_, ?_, ?_, ?_, ?_⟩
  · unfold getTone TONE_DARK_MAX TONE_LIGHT_MIN
    split
    · simp_all
    · split <;> simp_all
  · unfold getTone TONE_DARK_MAX TONE_LIGHT_MIN
    split
    · rename_i h
      constructor
      · intro hc; cases hc
      · intro hc; linarith
    · split
      · rename_i h h2
        simp_all
      · rename_i h h2
        constructor
        · intro hc; cases hc
        · intro hc; exact absurd hc h2
  · unfold getTone TONE_DARK_MAX TONE_LIGHT_MIN
    split
    · rename_i h
      constructor
      · intro hc; cases hc
      · intro hc; linarith
    · split
      · rename_i h h2
        constructor
        · intro hc; cases hc
        · intro hc; linarith
      · rename_i h h2
        constructor
        · intro _; constructor <;> linarith
        · intro _; rfl
  · unfold getChromaClass CHROMA_NEUTRAL_MAX CHROMA_STRONG_MIN
    split
    · simp_all
    · split <;> simp_all
  · unfold getChromaClass CHROMA_NEUTRAL_MAX CHROMA_STRONG_MIN
    split
    · rename_i h
      constructor
      · intro hc; cases hc
      · intro hc; linarith
    · split
      · rename_i h h2
        constructor
        · intro hc; cases hc
        · intro hc; linarith
      · rename_i h h2
        constructor
        · intro _; linarith
        · intro _; rfl
  · unfold getChromaClass CHROMA_NEUTRAL_MAX CHROMA_STRONG_MIN
    split
    · rename_i h
      constructor
      · intro hc; cases hc
      · intro hc; linarith
    · split
      · rename_i h h2
        constructor
        · intro _; constructor <;> linarith
        · intro _; rfl
      · rename_i h h2
        constructor
        · intro hc; cases hc
        · intro hc; linarith
  · intro h0 h360
    unfold classifyPalette
    simp [List.mem_filter, isDestructiveCandidate, hueInRange,
      DESTRUCTIVE_HUE, Bool.and_eq_true, Bool.or_eq_true, decide_eq_true_eq,
      and_assoc]
    intro _ _
    constructor
    · rintro (hh | hh)
      · exact Or.inl ⟨hh, h360⟩
      · exact Or.inr ⟨h0, hh⟩
    · rintro (⟨hh, _⟩ | ⟨_, hh⟩)
      · exact Or.inl hh
      · exact Or.inr hh

/-- Witness for claim C6 at concrete inputs. -/
theorem classification_spec_witness :
    (getTone 0.35 = Tone.dark ↔ (0.35 : ℚ) ≤ 0.35) ∧
    (getTone 0.35 = Tone.light ↔ (0.75 : ℚ) < 0.35) ∧
    (getTone 0.35 = Tone.mid ↔ (0.35 : ℚ) < 0.35 ∧ (0.35 : ℚ) ≤ 0.75) ∧
    (getChromaClass 0.04 = ChromaClassT.neutral ↔ (0.04 : ℚ) < 0.04) ∧
    (getChromaClass 0.04 = ChromaClassT.vivid ↔ (0.08 : ℚ) ≤ 0.04) ∧
    (getChromaClass 0.04 = ChromaClassT.muted ↔
      (0.04 : ℚ) ≤ 0.04 ∧ (0.04 : ℚ) < 0.08) ∧
    (⟨"w", ⟨10, 10, 10⟩, ⟨0.5, 0.1, 355⟩⟩ ∈
        (classifyPalette [⟨"w", ⟨10, 10, 10⟩, ⟨0.5, 0.1, 355⟩⟩]).destructiveCandidates ↔
      (⟨"w", ⟨10, 10, 10⟩, ⟨0.5, 0.1, 355⟩⟩ : Color) ∈
          [(⟨"w", ⟨10, 10, 10⟩, ⟨0.5, 0.1, 355⟩⟩ : Color)] ∧
        (0.02 : ℚ) ≤ 0.1 ∧
        (((350 : ℚ) ≤ 355 ∧ (355 : ℚ) < 360) ∨ ((0 : ℚ) ≤ 355 ∧ (355 : ℚ) ≤ 40))) := by
  obtain ⟨h1, h2, h3, h4, h5, h6, h7⟩ :=
    classification_spec 0.35 0.04 ⟨"w", ⟨10, 10, 10⟩, ⟨0.5, 0.1, 355⟩⟩
      [⟨"w", ⟨10, 10, 10⟩, ⟨0.5, 0.1, 355⟩⟩]
  exact ⟨h1, h2, h3, h4, h5, h6, h7 (by norm_num) (by norm_num)⟩

/-! ## ConstraintTable (constraints.js) -/

/-- The nine token names of TOKEN_ORDER. -/
inductive Tok where
  | bgApp
  | bgSurface
  | bgElevated
  | textPrimary
  | textMuted
  | borderSubtle
  | borderStrong
  | accentSolid
  | accentSoft
deriving DecidableEq, Repr

/-- TOKEN_ORDER from constraints.js. -/
def TOKEN_ORDER : List Tok :=
  [.bgApp, .bgSurface, .bgElevated, .textPrimary, .textMuted,
   .borderSubtle, .borderStrong, .accentSolid, .accentSoft]

/-- The token name strings used by generateConfigId. -/
def Tok.str : Tok → String
  | .bgApp => "bgApp"
  | .bgSurface => "bgSurface"
  | .bgElevated => "bgElevated"
  | .textPrimary => "textPrimary"
  | .textMuted => "textMuted"
  | .borderSubtle => "borderSubtle"
  | .borderStrong => "borderStrong"
  | .accentSolid => "accentSolid"
  | .accentSoft => "accentSoft"

/-- The in-progress token-to-color assignment threaded through the search
(the deps object). -/
def Assigned : Type := Tok → Option Color

structure LightnessRange where
  min : ℚ
  max : ℚ
deriving DecidableEq, Repr

structure ContrastRequirement where
  against : Tok
  min : ℚ
  max : Option ℚ
deriving DecidableEq, Repr

structure ChromaRangeSpec where
  minRatio : ℚ
  maxRatio : ℚ
  of : Tok
deriving DecidableEq, Repr

structure ContrastToPrimarySpec where
  min : ℚ
  max : ℚ
  against : Tok
deriving DecidableEq, Repr

/-- A lightness rule: a static range or a function of the already resolved
dependency tokens, as in constraints.js. -/
inductive LightnessSpec where
  | static (r : LightnessRange)
  | dep (f : Assigned → LightnessRange)

structure TokenConstraint where
  maxChroma : Option ℚ := none
  minChroma : Option ℚ := none
  lightness : LightnessSpec
  contrast : List ContrastRequirement := []
  hueSameAs : List Tok := []
  chromaRange : Option ChromaRangeSpec := none
  contrastRatioToPrimary : Option ContrastToPrimarySpec := none

/-- Reads the L component of a resolved dependency.  In the source the
table closures access deps.X.oklch[0] directly; the search only evaluates
them once X is resolved, so the none branch is never reached there.  It is
mapped to an inverted range (min above max), which yields no candidates. -/
def depL (deps : Assigned) (t : Tok) (lo hi : ℚ) : LightnessRange :=
  match deps t with
  | some c => ⟨c.oklch.L + lo, c.oklch.L + hi⟩
  | none => ⟨1, 0⟩

/-- DARK_MODE_CONSTRAINTS from constraints.js. -/
def DARK_MODE_CONSTRAINTS : Tok → TokenConstraint
  | .bgApp =>
    { maxChroma := some 0.04
      lightness := .static ⟨0.08, 0.16⟩ }
  | .bgSurface =>
    { maxChroma := some 0.04
      lightness := .dep fun deps => depL deps .bgApp 0.04 0.12 }
  | .bgElevated =>
    { maxChroma := some 0.04
      lightness := .dep fun deps => depL deps .bgSurface 0.04 0.10 }
  | .textPrimary =>
    { maxChroma := some 0.05
      lightness := .static ⟨0.85, 1.0⟩
      contrast := [⟨.bgApp, 7, none⟩, ⟨.bgSurface, 7, none⟩,
        ⟨.bgElevated, 4.5, none⟩] }
  | .textMuted =>
    { maxChroma := some 0.05
      hueSameAs := [.textPrimary]
      lightness := .dep fun deps =>
        match deps .bgApp, deps .textPrimary with
        | some bg, some tp => ⟨bg.oklch.L + 0.30, tp.oklch.L - 0.10⟩
        | _, _ => ⟨1, 0⟩
      contrast := [⟨.bgApp, 4.5, none⟩, ⟨.bgSurface, 3, none⟩]
      contrastRatioToPrimary := some ⟨0.6, 0.85, .bgApp⟩ }
  | .borderSubtle =>
    { maxChroma := some 0.04
      lightness := .dep fun deps =>
        match deps .bgApp, deps .textPrimary with
        | some bg, some tp => ⟨bg.oklch.L + 0.05, tp.oklch.L - 0.30⟩
        | _, _ => ⟨1, 0⟩
      contrast := [⟨.bgApp, 1.2, some 3.0⟩, ⟨.bgSurface, 1.2, some 3.0⟩,
        ⟨.bgElevated, 1.2, some 3.0⟩] }
  | .borderStrong =>
    { maxChroma := some 0.04
      lightness := .dep fun deps =>
        match deps .borderSubtle, deps .textPrimary with
        | some bs, some tp => ⟨bs.oklch.L + 0.05, tp.oklch.L - 0.15⟩
        | _, _ => ⟨1, 0⟩
      contrast := [⟨.bgApp, 3.0, none⟩] }
  | .accentSolid =>
    { minChroma := some 0.08
      lightness := .static ⟨0.45, 0.80⟩ }
  | .accentSoft =>
    { minChroma := some 0.04
      chromaRange := some ⟨0.5, 0.8, .accentSolid⟩
      hueSameAs := [.accentSolid]
      lightness := .dep fun deps => depL deps .bgApp 0 0.25
      contrast := [⟨.bgApp, 1.5, some 3.0⟩] }

/-- LIGHT_MODE_CONSTRAINTS from constraints.js. -/
def LIGHT_MODE_CONSTRAINTS : Tok → TokenConstraint
  | .bgApp =>
    { maxChroma := some 0.04
      lightness := .static ⟨0.92, 1.0⟩ }
  | .bgSurface =>
    { maxChroma := some 0.04
      lightness := .dep fun deps => depL deps .bgApp (-0.12) (-0.04) }
  | .bgElevated =>
    { maxChroma := some 0.04
      lightness := .dep fun deps => depL deps .bgSurface (-0.10) (-0.04) }
  | .textPrimary =>
    { maxChroma := some 0.05
      lightness := .static ⟨0, 0.20⟩
      contrast := [⟨.bgApp, 7, none⟩, ⟨.bgSurface, 7, none⟩,
        ⟨.bgElevated, 4.5, none⟩] }
  | .textMuted =>
    { maxChroma := some 0.05
      hueSameAs := [.textPrimary]
      lightness := .dep fun deps =>
        match deps .bgApp, deps .textPrimary with
        | some bg, some tp => ⟨tp.oklch.L + 0.10, bg.oklch.L - 0.30⟩
        | _, _ => ⟨1, 0⟩
      contrast := [⟨.bgApp, 4.5, none⟩, ⟨.bgSurface, 3, none⟩]
      contrastRatioToPrimary := some ⟨0.6, 0.85, .bgApp⟩ }
  | .borderSubtle =>
    { maxChroma := some 0.04
      lightness := .dep fun deps =>
        match deps .bgApp, deps .textPrimary with
        | some bg, some tp => ⟨tp.oklch.L + 0.30, bg.oklch.L - 0.05⟩
        | _, _ => ⟨1, 0⟩
      contrast := [⟨.bgApp, 1.2, some 3.0⟩, ⟨.bgSurface, 1.2, some 3.0⟩,
        ⟨.bgElevated, 1.2, some 3.0⟩] }
  | .borderStrong =>
    { maxChroma := some 0.04
      lightness := .dep fun deps =>
        match deps .borderSubtle, deps .textPrimary with
        | some bs, some tp => ⟨tp.oklch.L + 0.15, bs.oklch.L - 0.05⟩
        | _, _ => ⟨1, 0⟩
      contrast := [⟨.bgApp, 3.0, none⟩] }
  | .accentSolid =>
    { minChroma := some 0.08
      lightness := .static ⟨0.45, 0.80⟩ }
  | .accentSoft =>
    { minChroma := some 0.04
      chromaRange := some ⟨0.5, 0.8, .accentSolid⟩
      hueSameAs := [.accentSolid]
      lightness := .dep fun deps => depL deps .bgApp (-0.25) 0
      contrast := [⟨.bgApp, 1.5, some 3.0⟩] }

inductive Mode where
  | dark
  | light
deriving DecidableEq, Repr

/-- The per-mode table selection done at the top of enumerateConfigurations
and validateConfiguration. -/
def constraintsFor : Mode → Tok → TokenConstraint
  | .dark => DARK_MODE_CONSTRAINTS
  | .light => LIGHT_MODE_CONSTRAINTS

/-! ## Enumerator (enumerate.js) -/

def MAX_CONFIGURATIONS : ℕ := 12

def MAX_CANDIDATES_PER_TOKEN : ℕ := 6

/-- The chroma bound checks at the top of the filterByConstraint predicate:
C at or above maxChroma is rejected, C below minChroma is rejected. -/
def chromaOkB (constraint : TokenConstraint) (color : Color) : Bool :=
  (match constraint.maxChroma with
    | none => true
    | some m => decide (color.oklch.C < m)) &&
  (match constraint.minChroma with
    | none => true
    | some m => decide (m ≤ color.oklch.C))

/-- Resolves the lightness rule against the current deps, as the predicate
does before its lightness checks. -/
def evalLightness (constraint : TokenConstraint) (deps : Assigned) :
    LightnessRange :=
  match constraint.lightness with
  | .static r => r
  | .dep f => f deps

/-- The lightness checks: an inverted range rejects everything, otherwise
L must lie inside the range. -/
def lightnessOkB (constraint : TokenConstraint) (deps : Assigned)
    (color : Color) : Bool :=
  decide ((evalLightness constraint deps).min ≤ (evalLightness constraint deps).max) &&
  decide ((evalLightness constraint deps).min ≤ color.oklch.L) &&
  decide (color.oklch.L ≤ (evalLightness constraint deps).max)

/-- One contrast requirement check; an unresolved dependency is skipped. -/
def contrastReqOkB (g : ℚ → ℚ) (deps : Assigned) (color : Color)
    (req : ContrastRequirement) : Bool :=
  match deps req.against with
  | none => true
  | some against =>
    decide (req.min ≤ contrastRatio g color.rgb against.rgb) &&
    (match req.max with
      | none => true
      | some mx => decide (contrastRatio g color.rgb against.rgb ≤ mx))

def contrastOkB (g : ℚ → ℚ) (constraint : TokenConstraint) (deps : Assigned)
    (color : Color) : Bool :=
  constraint.contrast.all (contrastReqOkB g deps color)

/-- The hue matching check: at most 30 degrees from each resolved token
listed in hueSameAs. -/
def hueOkB (constraint : TokenConstraint) (deps : Assigned)
    (color : Color) : Bool :=
  constraint.hueSameAs.all fun tokenName =>
    match deps tokenName with
    | none => true
    | some ref => decide (hueDifference color.oklch.h ref.oklch.h ≤ 30)

/-- The relative chroma band check (for accentSoft). -/
def chromaRangeOkB (constraint : TokenConstraint) (deps : Assigned)
    (color : Color) : Bool :=
  match constraint.chromaRange with
  | none => true
  | some cr =>
    match deps cr.of with
    | none => true
    | some ref =>
      decide (ref.oklch.C * cr.minRatio ≤ color.oklch.C) &&
      decide (color.oklch.C ≤ ref.oklch.C * cr.maxRatio)

/-- The textMuted relative contrast band check against textPrimary. -/
def ctpOkB (g : ℚ → ℚ) (constraint : TokenConstraint) (deps : Assigned)
    (color : Color) : Bool :=
  match constraint.contrastRatioToPrimary with
  | none => true
  | some spec =>
    match deps spec.against, deps Tok.textPrimary with
    | some bg, some primary =>
      decide (spec.min ≤
        contrastRatio g color.rgb bg.rgb / contrastRatio g primary.rgb bg.rgb) &&
      decide (contrastRatio g color.rgb bg.rgb /
          contrastRatio g primary.rgb bg.rgb ≤ spec.max)
    | _, _ => true

/-- The full filterByConstraint predicate, in the source check order. -/
def satisfiesConstraint (g : ℚ → ℚ) (constraint : TokenConstraint)
    (deps : Assigned) (color : Color) : Bool :=
  chromaOkB constraint color &&
  lightnessOkB constraint deps color &&
  contrastOkB g constraint deps color &&
  hueOkB constraint deps color &&
  chromaRangeOkB constraint deps color &&
  ctpOkB g constraint deps color

/-- filterByConstraint from enumerate.js. -/
def filterByConstraint (g : ℚ → ℚ) (colors : List Color)
    (constraint : TokenConstraint) (deps : Assigned) : List Color :=
  colors.filter (satisfiesConstraint g constraint deps)

/-- generateConfigId from enumerate.js: token colon colorName pairs joined
with a vertical bar in TOKEN_ORDER order; a missing binding or an empty
name renders as a question mark. -/
def generateConfigId (assigned : Assigned) : String :=
  let sep : String := "|"
  let colon : String := ":"
  let unknown : String := "?"
  String.intercalate sep (TOKEN_ORDER.map fun token =>
    token.str ++ colon ++
      (match assigned token with
        | some c => if c.name = "" then unknown else c.name
        | none => unknown))

structure Configuration where
  tokens : Assigned
  id : String

structure EnumState where
  configurations : List Configuration
  seenIds : List String
  ctr : ℕ

/-- The tentative assignment step of the backtracking loop.  The source
mutates the shared deps object and deletes the key on exit; extending the
map functionally models exactly that scoped rollback. -/
def updateAssigned (assigned : Assigned) (t : Tok) (c : Color) : Assigned :=
  fun u => if u = t then some c else assigned u

mutual

/-- The recursive backtrack closure of enumerateConfigurations.  sh is the
Fisher-Yates shuffle oracle, indexed by a per-call counter; candidates are
capped to MAX_CANDIDATES_PER_TOKEN after the shuffle when more survive the
filter. -/
def backtrack (g : ℚ → ℚ) (sh : ℕ → List Color → List Color)
    (cons : Tok → TokenConstraint) (colors : List Color)
    (toks : List Tok) (assigned : Assigned) (st : EnumState) : EnumState :=
  if MAX_CONFIGURATIONS ≤ st.configurations.length then st
  else
    match toks with
    | [] =>
      let id := generateConfigId assigned
      if id ∈ st.seenIds then st
      else
        { st with
          seenIds := id :: st.seenIds
          configurations := st.configurations ++ [⟨assigned, id⟩] }
    | tok :: rest =>
      let constraint := cons tok
      let candidates0 := filterByConstraint g colors constraint assigned
      let candidates :=
        if MAX_CANDIDATES_PER_TOKEN < candidates0.length
        then (sh st.ctr candidates0).take MAX_CANDIDATES_PER_TOKEN
        else sh st.ctr candidates0
      tryCandidates g sh cons colors rest tok assigned candidates
        { st with ctr := st.ctr + 1 }
termination_by (toks.length, 0)

/-- The candidate loop inside backtrack: assign, recurse, roll back, and
abort the loop as soon as MAX_CONFIGURATIONS is reached. -/
def tryCandidates (g : ℚ → ℚ) (sh : ℕ → List Color → List Color)
    (cons : Tok → TokenConstraint) (colors : List Color)
    (rest : List Tok) (tok : Tok) (assigned : Assigned)
    (cands : List Color) (st : EnumState) : EnumState :=
  match cands with
  | [] => st
  | c :: cs =>
    let st2 := backtrack g sh cons colors rest (updateAssigned assigned tok c) st
    if MAX_CONFIGURATIONS ≤ st2.configurations.length then st2
    else tryCandidates g sh cons colors rest tok assigned cs st2
termination_by (rest.length, cands.length + 1)

end

/-- enumerateConfigurations from enumerate.js. -/
def enumerateConfigurations (g : ℚ → ℚ) (sh : ℕ → List Color → List Color)
    (colors : List Color) (mode : Mode) : List Configuration :=
  (backtrack g sh (constraintsFor mode) colors TOKEN_ORDER
    (fun _ => none) ⟨[], [], 0⟩).configurations

/-- validateConfiguration from enumerate.js: re-checks every contrast
requirement of every token over the full assignment; a missing token fails
validation, a requirement against a missing token is skipped. -/
def validateConfiguration (g : ℚ → ℚ) (config : Configuration)
    (mode : Mode) : Bool :=
  TOKEN_ORDER.all fun tokenName =>
    match config.tokens tokenName with
    | none => false
    | some color =>
      ((constraintsFor mode tokenName).contrast).all fun req =>
        match config.tokens req.against with
        | none => true
        | some against =>
          decide (req.min ≤ contrastRatio g color.rgb against.rgb) &&
          (match req.max with
            | none => true
            | some mx => decide (contrastRatio g color.rgb against.rgb ≤ mx))

/-- The identity shuffle oracle, a legitimate instance of the shuffle
contract used to instantiate theorems on concrete inputs. -/
def shId : ℕ → List Color → List Color := fun _ l => l

/-- The shuffle oracle contract: a Fisher-Yates shuffle only permutes, so
every element of the output was in the input. -/
def ShuffleSound (sh : ℕ → List Color → List Color) : Prop :=
  ∀ n l x, x ∈ sh n l → x ∈ l

lemma shId_sound : ShuffleSound shId := fun _ _ _ h => h

/-! ## ConfigCache (canonical.js) -/

/-- The single-slot module cache of canonical.js.  The unset sentinel null
is Option none. -/
structure Cache where
  paletteHash : Option String
  mode : Option Mode
  configurations : List Configuration

/-- hashPalette from canonical.js: color names, sorted, comma-joined. -/
def hashPalette (colors : List Color) : String :=
  let comma : String := ","
  String.intercalate comma
    ((colors.map fun c => c.name).insertionSort (fun a b => a ≤ b))

/-- getValidConfigurations from canonical.js, with the cache slot passed
and returned explicitly in place of the module-level mutable slot. -/
def getValidConfigurations (g : ℚ → ℚ) (sh : ℕ → List Color → List Color)
    (cache : Cache) (colors : List Color) (mode : Mode) :
    List Configuration × Cache :=
  let hash := hashPalette colors
  if cache.paletteHash ≠ some hash ∨ cache.mode ≠ some mode then
    let configurations := enumerateConfigurations g sh colors mode
    (configurations, ⟨some hash, some mode, configurations⟩)
  else
    (cache.configurations, cache)

/-- clearConfigCache from canonical.js: the cleared slot. -/
def clearConfigCache : Cache := ⟨none, none, []⟩

/-! ## Destructive color selection (playful.js) -/

/-- sortByChroma from colors.js, ascending direction (the direction the
destructive picker uses); JS sort is stable, as insertion sort is. -/
def sortByChroma (colors : List Color) : List Color :=
  colors.insertionSort (fun a b => a.oklch.C ≤ b.oklch.C)

/-- pickRandom from colors.js, with the Math.random draw modelled as a
natural index reduced modulo the length. -/
def pickRandom (arr : List Color) (j : ℕ) : Option Color :=
  match arr with
  | [] => none
  | _ => arr[j % arr.length]?

/-- DEFAULT_DESTRUCTIVE from playful.js. -/
def DEFAULT_DESTRUCTIVE : Color :=
  { name := "default-destructive"
    rgb := ⟨140, 82, 72⟩
    oklch := ⟨0.45, CHROMA_STRONG_MIN, 25⟩ }

/-- pickDestructiveColor from playful.js.  The final defensive check that
the picked value has an rgb array is always true in this model, since every
Color carries one. -/
def pickDestructiveColor (p : ClassifiedPalette) (j : ℕ) : Color :=
  match p.destructiveCandidates with
  | [] => DEFAULT_DESTRUCTIVE
  | c0 :: tl =>
    let sorted := sortByChroma (c0 :: tl)
    let mutedHalf := sorted.take (max 1 ((sorted.length + 1) / 2))
    match pickRandom mutedHalf j with
    | some picked => picked
    | none => c0

/-! ## Claim C9: destructive color selection -/

lemma pickRandom_mem (arr : List Color) (j : ℕ) (h : arr ≠ []) :
    ∃ x, pickRandom arr j = some x ∧ x ∈ arr := by
  cases arr with
  | nil => exact absurd rfl h
  | cons a l =>
    have hlt : j % (a :: l).length < (a :: l).length :=
      Nat.mod_lt _ (by simp)
    refine ⟨(a :: l).get ⟨j % (a :: l).length, hlt⟩, ?_, ?_⟩
    · show (a :: l)[j % (a :: l).length]? = _
      rw [List.getElem?_eq_getElem hlt]
      rfl
    · exact List.get_mem _ _ _

/-- Claim C9: with no destructive candidates the picker returns the fixed
default brick red (rgb 140, 82, 72); with candidates it always returns a
member of destructiveCandidates, drawn from the ceiling half of the
candidates sorted by ascending chroma. -/
theorem pickDestructive_spec (p : ClassifiedPalette) (j : ℕ) :
    (p.destructiveCandidates = [] →
      pickDestructiveColor p j = DEFAULT_DESTRUCTIVE) ∧
    (p.destructiveCandidates ≠ [] →
      pickDestructiveColor p j ∈ p.destructiveCandidates ∧
      pickDestructiveColor p j ∈
        (sortByChroma p.destructiveCandidates).take
          (max 1 (((sortByChroma p.destructiveCandidates).length + 1) / 2))) ∧
    DEFAULT_DESTRUCTIVE.rgb = ⟨140, 82, 72⟩ := by
  refine ⟨?_, ?_, rfl⟩
  · intro h
    unfold pickDestructiveColor
    rw [h]
  · intro h
    obtain ⟨c0, tl, heq⟩ := List.exists_cons_of_ne_nil h
    rw [heq]
    have hperm : List.Perm (sortByChroma (c0 :: tl)) (c0 :: tl) :=
      List.perm_insertionSort _ _
    have hlen : 0 < (sortByChroma (c0 :: tl)).length := by
      rw [hperm.length_eq]
      simp
    have hmhne : (sortByChroma (c0 :: tl)).take
        (max 1 (((sortByChroma (c0 :: tl)).length + 1) / 2)) ≠ [] := by
      apply List.ne_nil_of_length_pos
      rw [List.length_take]
      have h1 := le_max_left 1 (((sortByChroma (c0 :: tl)).length + 1) / 2)
      omega
    obtain ⟨x, hx, hxmem⟩ := pickRandom_mem _ j hmhne
    have hres : pickDestructiveColor p j = x := by
      unfold pickDestructiveColor
      rw [heq]
      simp only [hx]
    rw [hres]
    have hx_sorted : x ∈ sortByChroma (c0 :: tl) :=
      List.take_subset _ _ hxmem
    exact ⟨hperm.mem_iff.mp hx_sorted, hxmem⟩

/-- Witness for claim C9 on a concrete classified palette. -/
theorem pickDestructive_spec_witness :
    pickDestructiveColor
        ⟨[], [], [], [], [], [], [], [], [], [], []⟩ 0 = DEFAULT_DESTRUCTIVE ∧
    pickDestructiveColor
        ⟨[], [], [], [], [], [], [], [], [],
          [⟨"r", ⟨120, 40, 40⟩, ⟨0.4, 0.1, 20⟩⟩], []⟩ 0 ∈
      [(⟨"r", ⟨120, 40, 40⟩, ⟨0.4, 0.1, 20⟩⟩ : Color)] := by
  constructor
  · exact (pickDestructive_spec ⟨[], [], [], [], [], [], [], [], [], [], []⟩ 0).1 rfl
  · exact ((pickDestructive_spec
      ⟨[], [], [], [], [], [], [], [], [],
        [⟨"r", ⟨120, 40, 40⟩, ⟨0.4, 0.1, 20⟩⟩], []⟩ 0).2.1 (by simp)).1

/-! ## Claim C10: chroma bound strictness in filterByConstraint -/

/-- Claim C10: the maxChroma bound is exclusive (a color whose chroma
equals maxChroma exactly is rejected by filterByConstraint, whatever the
other data), while minChroma is inclusive: a color with chroma exactly
0.08 and lightness inside the static band passes the dark mode accentSolid
filter. -/
theorem chromaBound_spec :
    (∀ (g : ℚ → ℚ) (colors : List Color) (constraint : TokenConstraint)
        (deps : Assigned) (c : Color) (q : ℚ),
      constraint.maxChroma = some q → c.oklch.C = q →
      c ∉ filterByConstraint g colors constraint deps) ∧
    (∀ (g : ℚ → ℚ) (colors : List Color) (deps : Assigned) (c : Color),
      c.oklch.C = 0.08 → 0.45 ≤ c.oklch.L → c.oklch.L ≤ 0.80 → c ∈ colors →
      c ∈ filterByConstraint g colors
        (DARK_MODE_CONSTRAINTS Tok.accentSolid) deps) := by
  constructor
  · intro g colors constraint deps c q hq hC hmem
    rw [filterByConstraint, List.mem_filter] at hmem
    obtain ⟨-, hsat⟩ := hmem
    rw [satisfiesConstraint] at hsat
    simp only [Bool.and_eq_true] at hsat
    have hchroma := hsat.1.1.1.1.1
    rw [chromaOkB, hq] at hchroma
    simp only [Bool.and_eq_true, decide_eq_true_eq] at hchroma
    exact absurd (hC ▸ hchroma.1) (lt_irrefl q)
  · intro g colors deps c hC hL1 hL2 hmem
    rw [filterByConstraint, List.mem_filter]
    refine ⟨hmem, ?_⟩
    rw [satisfiesConstraint, DARK_MODE_CONSTRAINTS]
    simp [chromaOkB, lightnessOkB, evalLightness, contrastOkB, hueOkB,
      chromaRangeOkB, ctpOkB, hC, hL1, hL2]
    norm_num

/-- Witness for claim C10 at concrete colors and the dark mode table. -/
theorem chromaBound_spec_witness :
    (⟨"m", ⟨0, 0, 0⟩, ⟨0.1, 0.04, 0⟩⟩ : Color) ∉
      filterByConstraint gSq [⟨"m", ⟨0, 0, 0⟩, ⟨0.1, 0.04, 0⟩⟩]
        (DARK_MODE_CONSTRAINTS Tok.bgApp) (fun _ => none) ∧
    (⟨"a", ⟨0, 0, 0⟩, ⟨0.6, 0.08, 200⟩⟩ : Color) ∈
      filterByConstraint gSq [⟨"a", ⟨0, 0, 0⟩, ⟨0.6, 0.08, 200⟩⟩]
        (DARK_MODE_CONSTRAINTS Tok.accentSolid) (fun _ => none) := by
  constructor
  · exact chromaBound_spec.1 gSq _ _ _ _ 0.04 rfl rfl
  · exact chromaBound_spec.2 gSq _ _ _ rfl (by norm_num) (by norm_num)
      (List.mem_singleton.mpr rfl)

/-! ## Claim C8: infeasibility is not an error -/

lemma chromaOk_max {constraint : TokenConstraint} {color : Color} {q : ℚ}
    (hq : constraint.maxChroma = some q)
    (h : chromaOkB constraint color = true) : color.oklch.C < q := by
  rw [chromaOkB, hq] at h
  simp only [Bool.and_eq_true, decide_eq_true_eq] at h
  exact h.1

lemma lightnessOk_bounds {constraint : TokenConstraint} {deps : Assigned}
    {color : Color} (h : lightnessOkB constraint deps color = true) :
    (evalLightness constraint deps).min ≤ (evalLightness constraint deps).max ∧
    (evalLightness constraint deps).min ≤ color.oklch.L ∧
    color.oklch.L ≤ (evalLightness constraint deps).max := by
  rw [lightnessOkB] at h
  simp only [Bool.and_eq_true, decide_eq_true_eq] at h
  exact ⟨h.1.1, h.1.2, h.2⟩

lemma shuffle_nil (sh : ℕ → List Color → List Color) (hsh : ShuffleSound sh)
    (n : ℕ) : sh n [] = [] := by
  rcases hn : sh n [] with _ | ⟨a, l⟩
  · rfl
  · exact absurd (hsh n [] a (hn ▸ List.mem_cons_self a l))
      (List.not_mem_nil a)

/-- Claim C8: a dependent lightness range that evaluates with min above max
makes filterByConstraint yield zero candidates (no error is possible), and
a palette with no color inside the dark mode bgApp chroma and lightness
band makes getValidConfigurations return the empty list (starting from the
cleared cache slot). -/
theorem infeasible_spec :
    (∀ (g : ℚ → ℚ) (colors : List Color) (constraint : TokenConstraint)
        (deps : Assigned),
      (evalLightness constraint deps).max < (evalLightness constraint deps).min →
      filterByConstraint g colors constraint deps = []) ∧
    (∀ (g : ℚ → ℚ) (sh : ℕ → List Color → List Color) (colors : List Color),
      ShuffleSound sh →
      (∀ c ∈ colors,
        ¬(c.oklch.C < 0.04 ∧ 0.08 ≤ c.oklch.L ∧ c.oklch.L ≤ 0.16)) →
      (getValidConfigurations g sh clearConfigCache colors Mode.dark).1 = []) := by
  constructor
  · intro g colors constraint deps hinv
    rw [filterByConstraint]
    apply List.filter_eq_nil_iff.mpr
    intro c hc hsat
    rw [satisfiesConstraint] at hsat
    simp only [Bool.and_eq_true] at hsat
    have hl := lightnessOk_bounds hsat.1.1.1.1.2
    linarith [hl.1]
  · intro g sh colors hsh hfail
    have hc0 : filterByConstraint g colors (constraintsFor Mode.dark Tok.bgApp)
        (fun _ => none) = [] := by
      rw [filterByConstraint]
      apply List.filter_eq_nil_iff.mpr
      intro c hc hsat
      apply hfail c hc
      rw [satisfiesConstraint] at hsat
      simp only [Bool.and_eq_true] at hsat
      have hch : c.oklch.C < 0.04 :=
        chromaOk_max (q := 0.04) rfl hsat.1.1.1.1.1
      have hlt := lightnessOk_bounds hsat.1.1.1.1.2
      exact ⟨hch, hlt.2.1, hlt.2.2⟩
    have henum : enumerateConfigurations g sh colors Mode.dark = [] := by
      rw [enumerateConfigurations, TOKEN_ORDER]
      rw [backtrack]
      simp only [MAX_CONFIGURATIONS, List.length_nil, hc0]
      rw [if_neg (by omega)]
      rw [shuffle_nil sh hsh]
      rw [tryCandidates.eq_def]
      simp
    rw [getValidConfigurations]
    rw [if_pos (Or.inl (by simp [clearConfigCache]))]
    exact henum

/-- Witness for claim C8 on a concrete inverted range and a concrete
palette failing the dark bgApp band. -/
theorem infeasible_spec_witness :
    filterByConstraint gSq [⟨"a", ⟨0, 0, 0⟩, ⟨0.5, 0, 0⟩⟩]
        (DARK_MODE_CONSTRAINTS Tok.textMuted)
        (fun t => match t with
          | Tok.bgApp => some ⟨"a", ⟨0, 0, 0⟩, ⟨0.5, 0, 0⟩⟩
          | Tok.textPrimary => some ⟨"b", ⟨255, 255, 255⟩, ⟨0.5, 0, 0⟩⟩
          | _ => none) = [] ∧
    (getValidConfigurations gSq shId clearConfigCache
        [⟨"a", ⟨0, 0, 0⟩, ⟨0.5, 0, 0⟩⟩] Mode.dark).1 = [] := by
  constructor
  · exact infeasible_spec.1 gSq _ _ _ (by
      norm_num [evalLightness, DARK_MODE_CONSTRAINTS])
  · exact infeasible_spec.2 gSq shId _ shId_sound (by
      intro c hc
      rcases List.mem_singleton.mp hc with rfl
      norm_num)

/-! ## Claim C2: cap and dedup of the enumeration -/

/-- The search state invariant behind the cap and the dedup: never more
than MAX_CONFIGURATIONS stored, ids pairwise distinct, and every stored id
registered in seenIds. -/
def Inv2 (st : EnumState) : Prop :=
  st.configurations.length ≤ MAX_CONFIGURATIONS ∧
  (st.configurations.map (fun cfg => cfg.id)).Nodup ∧
  ∀ cfg ∈ st.configurations, cfg.id ∈ st.seenIds

lemma tryCandidates_inv2 (g : ℚ → ℚ) (sh : ℕ → List Color → List Color)
    (cons : Tok → TokenConstraint) (colors : List Color)
    (rest : List Tok) (tok : Tok) (assigned : Assigned)
    (IH : ∀ a st, Inv2 st → Inv2 (backtrack g sh cons colors rest a st)) :
    ∀ cands st, Inv2 st →
      Inv2 (tryCandidates g sh cons colors rest tok assigned cands st) := by
  intro cands
  induction cands with
  | nil =>
    intro st h
    rw [tryCandidates.eq_def]
    exact h
  | cons c cs ih =>
    intro st h
    rw [tryCandidates.eq_def]
    dsimp only
    split
    · exact IH _ _ h
    · exact ih _ (IH _ _ h)

lemma backtrack_inv2 (g : ℚ → ℚ) (sh : ℕ → List Color → List Color)
    (cons : Tok → TokenConstraint) (colors : List Color) :
    ∀ toks assigned st, Inv2 st →
      Inv2 (backtrack g sh cons colors toks assigned st) := by
  intro toks
  induction toks with
  | nil =>
    intro assigned st h
    rw [backtrack.eq_def]
    dsimp only
    split
    · exact h
    · rename_i hguard
      split
      · exact h
      · rename_i hnew
        refine ⟨?_, ?_, ?_⟩
        · simp only [List.length_append, List.length_singleton]
          omega
        · rw [List.map_append]
          apply List.Nodup.append h.2.1 (List.nodup_singleton _)
          intro a ha hb
          rw [List.mem_singleton] at hb
          subst hb
          obtain ⟨cfg, hcfg, hid⟩ := List.mem_map.mp ha
          have hid2 : cfg.id = generateConfigId assigned := hid
          exact hnew (hid2 ▸ h.2.2 cfg hcfg)
        · intro cfg hcfg
          rcases List.mem_append.mp hcfg with hold | hnew2
          · exact List.mem_cons_of_mem _ (h.2.2 cfg hold)
          · rw [List.mem_singleton] at hnew2
            subst hnew2
            exact List.mem_cons_self _ _
  | cons tok rest ih =>
    intro assigned st h
    rw [backtrack.eq_def]
    dsimp only
    split
    · exact h
    · exact tryCandidates_inv2 g sh cons colors rest tok assigned
        (fun a st2 h2 => ih a st2 h2) _ _ h

/-- The cache slot only ever holds a capped, dedup list: true of the empty
slot and preserved by every lookup. -/
def CacheOk (cache : Cache) : Prop :=
  cache.configurations.length ≤ MAX_CONFIGURATIONS ∧
  (cache.configurations.map (fun cfg => cfg.id)).Nodup

lemma enumerate_inv2 (g : ℚ → ℚ) (sh : ℕ → List Color → List Color)
    (colors : List Color) (mode : Mode) :
    (enumerateConfigurations g sh colors mode).length ≤ MAX_CONFIGURATIONS ∧
    ((enumerateConfigurations g sh colors mode).map (fun cfg => cfg.id)).Nodup := by
  have h := backtrack_inv2 g sh (constraintsFor mode) colors TOKEN_ORDER
    (fun _ => none) ⟨[], [], 0⟩
    ⟨by simp [MAX_CONFIGURATIONS], by simp, by simp⟩
  exact ⟨h.1, h.2.1⟩

/-- Claim C2: getValidConfigurations returns at most MAX_CONFIGURATIONS
(= 12) Configurations and no two of them share a canonical id, whenever
the cache slot itself satisfies that same property (as the empty slot does
and every lookup preserves). -/
theorem getValid_capped_distinct (g : ℚ → ℚ)
    (sh : ℕ → List Color → List Color) (cache : Cache) (colors : List Color)
    (mode : Mode) (hcache : CacheOk cache) :
    (getValidConfigurations g sh cache colors mode).1.length ≤ MAX_CONFIGURATIONS ∧
    ((getValidConfigurations g sh cache colors mode).1.map
      (fun cfg => cfg.id)).Nodup ∧
    CacheOk (getValidConfigurations g sh cache colors mode).2 := by
  rw [getValidConfigurations]
  dsimp only
  split
  · have h := enumerate_inv2 g sh colors mode
    exact ⟨h.1, h.2, h.1, h.2⟩
  · exact ⟨hcache.1, hcache.2, hcache⟩

/-- Witness for claim C2 from the cleared cache slot on a concrete
palette. -/
theorem getValid_capped_distinct_witness :
    (getValidConfigurations gSq shId clearConfigCache
        [⟨"a", ⟨0, 0, 0⟩, ⟨0.1, 0, 0⟩⟩] Mode.dark).1.length ≤ MAX_CONFIGURATIONS ∧
    ((getValidConfigurations gSq shId clearConfigCache
        [⟨"a", ⟨0, 0, 0⟩, ⟨0.1, 0, 0⟩⟩] Mode.dark).1.map
      (fun cfg => cfg.id)).Nodup ∧
    CacheOk (getValidConfigurations gSq shId clearConfigCache
        [⟨"a", ⟨0, 0, 0⟩, ⟨0.1, 0, 0⟩⟩] Mode.dark).2 :=
  getValid_capped_distinct gSq shId clearConfigCache _ Mode.dark
    ⟨by simp [clearConfigCache, MAX_CONFIGURATIONS], by simp [clearConfigCache]⟩

/-! ## Claims C1 and C3: soundness and totality of the enumeration -/

/-- One contrast requirement satisfied between an assigned color and the
color it is checked against. -/
def reqHolds (g : ℚ → ℚ) (c a : Color) (req : ContrastRequirement) : Prop :=
  req.min ≤ contrastRatio g c.rgb a.rgb ∧
  ∀ mx, req.max = some mx → contrastRatio g c.rgb a.rgb ≤ mx

lemma contrastOk_reqHolds {g : ℚ → ℚ} {constraint : TokenConstraint}
    {deps : Assigned} {c : Color}
    (h : contrastOkB g constraint deps c = true) :
    ∀ req ∈ constraint.contrast, ∀ a, deps req.against = some a →
      reqHolds g c a req := by
  rw [contrastOkB, List.all_eq_true] at h
  intro req hreq a ha
  have h2 := h req hreq
  rw [contrastReqOkB, ha] at h2
  simp only [Bool.and_eq_true, decide_eq_true_eq] at h2
  refine ⟨h2.1, ?_⟩
  intro mx hmx
  have h3 := h2.2
  rw [hmx] at h3
  simpa using h3

/-- The invariant of the in-progress assignment after the first k tokens of
TOKEN_ORDER are resolved: they are all bound, every contrast reference of
a resolved token points at a resolved token, and every such pair meets its
requirement. -/
def AInv (g : ℚ → ℚ) (cons : Tok → TokenConstraint) (k : ℕ)
    (assigned : Assigned) : Prop :=
  (∀ t ∈ TOKEN_ORDER.take k, ∃ c, assigned t = some c) ∧
  (∀ t ∈ TOKEN_ORDER.take k, ∀ req ∈ (cons t).contrast,
    req.against ∈ TOKEN_ORDER.take k) ∧
  (∀ t ∈ TOKEN_ORDER.take k, ∀ req ∈ (cons t).contrast, ∀ c a,
    assigned t = some c → assigned req.against = some a → reqHolds g c a req)

/-- The structural property of both constraint tables that makes the
enumeration sound: every contrast requirement refers to a strictly earlier
token of TOKEN_ORDER. -/
def EarlierRefs (cons : Tok → TokenConstraint) : Prop :=
  ∀ (k : Fin TOKEN_ORDER.length),
    ∀ req ∈ (cons (TOKEN_ORDER.get k)).contrast,
      req.against ∈ TOKEN_ORDER.take k

lemma earlierRefs_constraintsFor (mode : Mode) :
    EarlierRefs (constraintsFor mode) := by
  cases mode <;> · unfold EarlierRefs constraintsFor; decide

lemma drop_facts (k : ℕ) (tok : Tok) (rest : List Tok)
    (hdrop : TOKEN_ORDER.drop k = tok :: rest) :
    ∃ hk : k < TOKEN_ORDER.length,
      TOKEN_ORDER.get ⟨k, hk⟩ = tok ∧
      TOKEN_ORDER.take (k + 1) = TOKEN_ORDER.take k ++ [tok] ∧
      tok ∉ TOKEN_ORDER.take k ∧
      TOKEN_ORDER.drop (k + 1) = rest := by
  have hk : k < TOKEN_ORDER.length := by
    by_contra hcon
    rw [List.drop_eq_nil_of_le (Nat.le_of_not_lt hcon)] at hdrop
    cases hdrop
  have hget? : TOKEN_ORDER[k]? = some tok := by
    rw [← List.head?_drop, hdrop]
    rfl
  have hgetElem : TOKEN_ORDER[k] = tok := by
    have h2 := List.getElem?_eq_getElem hk
    rw [h2] at hget?
    exact Option.some.inj hget?
  refine ⟨hk, ?_, ?_, ?_, ?_⟩
  · simpa [List.get_eq_getElem] using hgetElem
  · rw [List.take_succ, hget?]
    rfl
  · intro hmem
    have hnd : (TOKEN_ORDER.take k ++ TOKEN_ORDER.drop k).Nodup := by
      rw [List.take_append_drop]
      decide
    exact (List.disjoint_of_nodup_append hnd) hmem
      (hdrop ▸ List.mem_cons_self tok rest)
  · rw [← List.drop_drop, hdrop]
    rfl

lemma AInv_zero (g : ℚ → ℚ) (cons : Tok → TokenConstraint) :
    AInv g cons 0 (fun _ => none) := by
  refine ⟨?_, ?_, ?_⟩ <;> intro t ht <;> simp at ht

lemma AInv_step {g : ℚ → ℚ} {cons : Tok → TokenConstraint} {k : ℕ}
    {assigned : Assigned} {tok : Tok} {rest : List Tok} {c : Color}
    (hdrop : TOKEN_ORDER.drop k = tok :: rest) (hE : EarlierRefs cons)
    (hA : AInv g cons k assigned)
    (hc : satisfiesConstraint g (cons tok) assigned c = true) :
    AInv g cons (k + 1) (updateAssigned assigned tok c) := by
  obtain ⟨hk, hget, htake, hnotmem, -⟩ := drop_facts k tok rest hdrop
  have hagainst_tok : ∀ req ∈ (cons tok).contrast,
      req.against ∈ TOKEN_ORDER.take k := by
    have h := hE ⟨k, hk⟩
    rw [hget] at h
    exact h
  have hcontrast : ∀ req ∈ (cons tok).contrast, ∀ a,
      assigned req.against = some a → reqHolds g c a req := by
    rw [satisfiesConstraint] at hc
    simp only [Bool.and_eq_true] at hc
    exact contrastOk_reqHolds hc.1.1.1.2
  refine ⟨?_, ?_, ?_⟩
  · intro t ht
    rw [htake] at ht
    rcases List.mem_append.mp ht with h1 | h1
    · obtain ⟨c', hc'⟩ := hA.1 t h1
      have htne : t ≠ tok := by
        intro he
        exact hnotmem (he ▸ h1)
      refine ⟨c', ?_⟩
      simp only [updateAssigned]
      rw [if_neg htne]
      exact hc'
    · rw [List.mem_singleton] at h1
      subst h1
      exact ⟨c, by simp [updateAssigned]⟩
  · intro t ht req hreq
    rw [htake] at ht ⊢
    rcases List.mem_append.mp ht with h1 | h1
    · exact List.mem_append_left _ (hA.2.1 t h1 req hreq)
    · rw [List.mem_singleton] at h1
      subst h1
      exact List.mem_append_left _ (hagainst_tok req hreq)
  · intro t ht req hreq c' a hc' ha
    rw [htake] at ht
    rcases List.mem_append.mp ht with h1 | h1
    · have htne : t ≠ tok := by
        intro he
        exact hnotmem (he ▸ h1)
      have hane : req.against ≠ tok := by
        intro he
        exact hnotmem (he ▸ hA.2.1 t h1 req hreq)
      simp only [updateAssigned] at hc' ha
      rw [if_neg htne] at hc'
      rw [if_neg hane] at ha
      exact hA.2.2 t h1 req hreq c' a hc' ha
    · rw [List.mem_singleton] at h1
      subst h1
      have hane : req.against ≠ t := by
        intro he
        exact hnotmem (he ▸ hagainst_tok req hreq)
      have hceq : updateAssigned assigned t c t = some c := by
        simp [updateAssigned]
      rw [hceq] at hc'
      have ha2 : assigned req.against = some a := by
        simpa [updateAssigned, if_neg hane] using ha
      have hcc : c = c' := Option.some.inj hc'
      subst hcc
      exact hcontrast req hreq a ha2

lemma AInv_leaf {g : ℚ → ℚ} {mode : Mode} {k : ℕ} {assigned : Assigned}
    (hdrop : TOKEN_ORDER.drop k = [])
    (hA : AInv g (constraintsFor mode) k assigned) :
    (∀ t : Tok, (assigned t).isSome) ∧
    ∀ s : String, validateConfiguration g ⟨assigned, s⟩ mode = true := by
  have hlen : TOKEN_ORDER.length ≤ k := List.drop_eq_nil_iff.mp hdrop
  have htake : TOKEN_ORDER.take k = TOKEN_ORDER := List.take_of_length_le hlen
  have hmem : ∀ t : Tok, t ∈ TOKEN_ORDER.take k := by
    rw [htake]
    intro t
    cases t <;> decide
  constructor
  · intro t
    obtain ⟨c, hcx⟩ := hA.1 t (hmem t)
    rw [hcx]
    rfl
  · intro s
    rw [validateConfiguration, List.all_eq_true]
    intro t ht
    obtain ⟨c, hcx⟩ := hA.1 t (hmem t)
    dsimp only
    rw [hcx]
    rw [List.all_eq_true]
    intro req hreq
    rcases hy : assigned req.against with _ | a
    · rfl
    · have hr := hA.2.2 t (hmem t) req hreq c a hcx hy
      simp only [Bool.and_eq_true, decide_eq_true_eq]
      refine ⟨hr.1, ?_⟩
      rcases hmx : req.max with _ | mx
      · rfl
      · simpa using hr.2 mx hmx

/-- Every configuration in the state is total over the nine tokens and
passes validateConfiguration. -/
def SInvP (g : ℚ → ℚ) (mode : Mode) (st : EnumState) : Prop :=
  ∀ cfg ∈ st.configurations,
    (∀ t : Tok, (cfg.tokens t).isSome) ∧
    validateConfiguration g cfg mode = true

lemma tryCandidates_master (g : ℚ → ℚ) (sh : ℕ → List Color → List Color)
    (mode : Mode) (colors : List Color) (rest : List Tok) (tok : Tok)
    (k : ℕ) (assigned : Assigned)
    (hdrop : TOKEN_ORDER.drop k = tok :: rest)
    (hE : EarlierRefs (constraintsFor mode))
    (hA : AInv g (constraintsFor mode) k assigned)
    (IH : ∀ a st, AInv g (constraintsFor mode) (k + 1) a → SInvP g mode st →
      SInvP g mode (backtrack g sh (constraintsFor mode) colors rest a st)) :
    ∀ cands,
      (∀ c ∈ cands,
        satisfiesConstraint g (constraintsFor mode tok) assigned c = true) →
      ∀ st, SInvP g mode st →
        SInvP g mode
          (tryCandidates g sh (constraintsFor mode) colors rest tok assigned
            cands st) := by
  intro cands
  induction cands with
  | nil =>
    intro _ st h
    rw [tryCandidates.eq_def]
    exact h
  | cons c cs ih =>
    intro hcands st h
    rw [tryCandidates.eq_def]
    dsimp only
    have hst2 := IH (updateAssigned assigned tok c) st
      (AInv_step hdrop hE hA (hcands c (List.mem_cons_self c cs))) h
    split
    · exact hst2
    · exact ih (fun x hx => hcands x (List.mem_cons_of_mem _ hx)) _ hst2

lemma backtrack_master (g : ℚ → ℚ) (sh : ℕ → List Color → List Color)
    (mode : Mode) (colors : List Color) (hsh : ShuffleSound sh) :
    ∀ toks k assigned st, TOKEN_ORDER.drop k = toks →
      AInv g (constraintsFor mode) k assigned → SInvP g mode st →
      SInvP g mode
        (backtrack g sh (constraintsFor mode) colors toks assigned st) := by
  have hE := earlierRefs_constraintsFor mode
  intro toks
  induction toks with
  | nil =>
    intro k assigned st hdrop hA hS
    rw [backtrack.eq_def]
    dsimp only
    split
    · exact hS
    · split
      · exact hS
      · intro cfg hcfg
        rcases List.mem_append.mp hcfg with hold | hnew
        · exact hS cfg hold
        · rw [List.mem_singleton] at hnew
          subst hnew
          have h := AInv_leaf hdrop hA
          exact ⟨h.1, h.2 _⟩
  | cons tok rest ih =>
    intro k assigned st hdrop hA hS
    rw [backtrack.eq_def]
    dsimp only
    split
    · exact hS
    · obtain ⟨-, -, -, -, hdrop1⟩ := drop_facts k tok rest hdrop
      apply tryCandidates_master g sh mode colors rest tok k assigned hdrop hE hA
        (fun a st2 hA2 hS2 => ih (k + 1) a st2 hdrop1 hA2 hS2)
      · intro x hx
        have hx2 : x ∈ sh st.ctr
            (filterByConstraint g colors (constraintsFor mode tok) assigned) := by
          split at hx
          · exact List.take_subset _ _ hx
          · exact hx
        have hx3 := hsh _ _ _ hx2
        exact (List.mem_filter.mp hx3).2
      · exact hS

/-- Claim C1: every Configuration emitted by enumerateConfigurations
passes validateConfiguration for the same mode (for any shuffle oracle
that only permutes the candidate lists). -/
theorem enumerate_validates (g : ℚ → ℚ)
    (sh : ℕ → List Color → List Color) (colors : List Color) (mode : Mode)
    (hsh : ShuffleSound sh) :
    (enumerateConfigurations g sh colors mode).all
      (fun cfg => validateConfiguration g cfg mode) = true := by
  rw [List.all_eq_true]
  intro cfg hcfg
  have h := backtrack_master g sh mode colors hsh TOKEN_ORDER 0
    (fun _ => none) ⟨[], [], 0⟩ rfl (AInv_zero g (constraintsFor mode))
    (fun cfg2 h2 => absurd h2 (List.not_mem_nil cfg2))
  exact (h cfg hcfg).2

/-- Witness for claim C1 at the squaring gamma, the identity shuffle and a
concrete palette. -/
theorem enumerate_validates_witness :
    (enumerateConfigurations gSq shId
        [⟨"bg", ⟨0, 0, 0⟩, ⟨0.10, 0, 0⟩⟩,
          ⟨"text", ⟨255, 255, 255⟩, ⟨0.95, 0, 0⟩⟩] Mode.dark).all
      (fun cfg => validateConfiguration gSq cfg Mode.dark) = true :=
  enumerate_validates gSq shId _ Mode.dark shId_sound

/-- Claim C3: every Configuration emitted by enumerateConfigurations binds
a color to all nine tokens of TOKEN_ORDER; no emitted Configuration is
missing a binding (for any shuffle oracle that only permutes the candidate lists). -/
theorem enumerate_total (g : ℚ → ℚ)
    (sh : ℕ → List Color → List Color) (colors : List Color) (mode : Mode)
    (hsh : ShuffleSound sh) :
    (enumerateConfigurations g sh colors mode).all
      (fun cfg => TOKEN_ORDER.all fun t => (cfg.tokens t).isSome) = true := by
  rw [List.all_eq_true]
  intro cfg hcfg
  have h := backtrack_master g sh mode colors hsh TOKEN_ORDER 0
    (fun _ => none) ⟨[], [], 0⟩ rfl (AInv_zero g (constraintsFor mode))
    (fun cfg2 h2 => absurd h2 (List.not_mem_nil cfg2))
  have htot := (h cfg hcfg).1
  rw [List.all_eq_true]
  intro t ht
  exact htot t

/-- Witness for claim C3 at the squaring gamma, the identity shuffle and a
concrete palette. -/
theorem enumerate_total_witness :
    (enumerateConfigurations gSq shId
        [⟨"bg", ⟨0, 0, 0⟩, ⟨0.10, 0, 0⟩⟩,
          ⟨"muted", ⟨211, 211, 211⟩, ⟨0.50, 0, 0⟩⟩] Mode.dark).all
      (fun cfg => TOKEN_ORDER.all fun t => (cfg.tokens t).isSome) = true :=
  enumerate_total gSq shId _ Mode.dark shId_sound

/-! ## Claim C7: single slot cache semantics -/

/-- Claim C7: a lookup whose palette hash and mode both equal the stored
key returns the stored list with the slot untouched (no recomputation); a
lookup whose key differs recomputes through the Enumerator and overwrites
the single slot with the new key and list; and after clearConfigCache the
next lookup recomputes through the Enumerator. -/
theorem cache_spec (g : ℚ → ℚ) (sh : ℕ → List Color → List Color)
    (cache : Cache) (colors : List Color) (mode : Mode) :
    (cache.paletteHash = some (hashPalette colors) → cache.mode = some mode →
      getValidConfigurations g sh cache colors mode =
        (cache.configurations, cache)) ∧
    (cache.paletteHash ≠ some (hashPalette colors) ∨ cache.mode ≠ some mode →
      getValidConfigurations g sh cache colors mode =
        (enumerateConfigurations g sh colors mode,
          ⟨some (hashPalette colors), some mode,
            enumerateConfigurations g sh colors mode⟩)) ∧
    (getValidConfigurations g sh clearConfigCache colors mode).1 =
      enumerateConfigurations g sh colors mode := by
  refine ⟨?_, ?_, ?_⟩
  · intro h1 h2
    rw [getValidConfigurations]
    dsimp only
    rw [if_neg]
    intro hcon
    rcases hcon with hne | hne
    · exact hne h1
    · exact hne h2
  · intro h
    rw [getValidConfigurations]
    dsimp only
    rw [if_pos h]
  · rw [getValidConfigurations]
    dsimp only
    rw [if_pos (Or.inl (by simp [clearConfigCache]))]

/-- Witness for claim C7 on a concrete hit cache slot and the cleared
slot. -/
theorem cache_spec_witness :
    getValidConfigurations gSq shId
        ⟨some (hashPalette [⟨"a", ⟨0, 0, 0⟩, ⟨0.1, 0, 0⟩⟩]), some Mode.dark, []⟩
        [⟨"a", ⟨0, 0, 0⟩, ⟨0.1, 0, 0⟩⟩] Mode.dark =
      ((⟨some (hashPalette [⟨"a", ⟨0, 0, 0⟩, ⟨0.1, 0, 0⟩⟩]), some Mode.dark,
          []⟩ : Cache).configurations,
        ⟨some (hashPalette [⟨"a", ⟨0, 0, 0⟩, ⟨0.1, 0, 0⟩⟩]), some Mode.dark, []⟩) ∧
    (getValidConfigurations gSq shId clearConfigCache
        [⟨"a", ⟨0, 0, 0⟩, ⟨0.1, 0, 0⟩⟩] Mode.dark).1 =
      enumerateConfigurations gSq shId
        [⟨"a", ⟨0, 0, 0⟩, ⟨0.1, 0, 0⟩⟩] Mode.dark := by
  constructor
  · exact (cache_spec gSq shId _ _ Mode.dark).1 rfl rfl
  · exact (cache_spec gSq shId clearConfigCache _ Mode.dark).2.2

end Colorstory
